import Mathlib

/-!
Verification of the log-entries core of the pagerduty-mcp-server repository:
the query encoder (`LogEntryQuery.to_params` / `IncidentLogEntryQuery.to_params`
in `pagerduty_mcp/models/log_entries.py`), the pagination walker (`paginate`
from `pagerduty_mcp/utils.py`, modelled from the specification since the file
is not part of the shown sources), and the record decoder (the pydantic
`LogEntry` model with `extra="allow"` and its discriminated `agent` union).
-/

set_option maxRecDepth 8000

namespace PagerdutyMcp

/-- Python `datetime.datetime` restricted to the fields the log-entries code
touches; `isoformat` mirrors `datetime.isoformat` for whole-second values. -/
structure DateTime where
  year : Nat
  month : Nat
  day : Nat
  hour : Nat
  minute : Nat
  second : Nat
deriving DecidableEq, Repr

/-- Zero-pad a number to two digits, as Python `datetime.isoformat` does. -/
def pad2 (n : Nat) : String := if n < 10 then "0" ++ toString n else toString n

/-- Zero-pad a year to four digits, as Python `datetime.isoformat` does. -/
def pad4 (n : Nat) : String :=
  if n < 10 then "000" ++ toString n
  else if n < 100 then "00" ++ toString n
  else if n < 1000 then "0" ++ toString n
  else toString n

/-- Python `datetime.isoformat()` for whole-second values:
`YYYY-MM-DDTHH:MM:SS`. -/
def DateTime.isoformat (d : DateTime) : String :=
  pad4 d.year ++ "-" ++ pad2 d.month ++ "-" ++ pad2 d.day ++ "T" ++
    pad2 d.hour ++ ":" ++ pad2 d.minute ++ ":" ++ pad2 d.second

/-- An untyped JSON-like value as delivered by the transport (a `RawRecord`
field value). Timestamps arrive already parsed to `DateTime`, abstracting
Python's stdlib string-to-datetime parsing, which is not this repository's
code. -/
inductive RawValue where
  | str (s : String)
  | int (n : Int)
  | bool (b : Bool)
  | dt (d : DateTime)
  | null
  | list (items : List RawValue)
  | obj (fields : List (String × RawValue))
deriving Repr

/-- A `RawRecord`: an untyped mapping returned by the transport per page item. -/
abbrev RawObj := List (String × RawValue)

/-- First-match lookup in a string-keyed association list (Python `dict`
access; Python dicts cannot hold duplicate keys, so first match is faithful). -/
def lookupKey {α : Type} : List (String × α) → String → Option α
  | [], _ => none
  | (k, v) :: rest, key => if k = key then some v else lookupKey rest key

/-- A transport-parameter value: `to_params` produces strings, the integer
limit, and the `include[]` string list. -/
inductive ParamValue where
  | str (s : String)
  | int (n : Int)
  | strList (l : List String)
deriving DecidableEq, Repr

/-- `TransportParameters`: the flat string-keyed mapping built by `to_params`. -/
abbrev Params := List (String × ParamValue)

/-- Python `str(b).lower()` for a `bool`. -/
def pyBoolStr (b : Bool) : String := if b then "true" else "false"

/-- Modelled from the spec: the process-wide constant `MAX_RESULTS` lives in
`pagerduty_mcp/models/base.py`, which is not among the shown sources; the
`limit` field description in `pagerduty_mcp/models/log_entries.py` states
"The maximum is 1000". -/
def MAX_RESULTS : Int := 1000

/-- The closed 13-member `LogEntryType` vocabulary
(`pagerduty_mcp/models/log_entries.py`, lines 9-23). -/
def logEntryTypes : List String :=
  ["trigger_log_entry", "acknowledge_log_entry", "resolve_log_entry",
   "assign_log_entry", "escalate_log_entry", "notify_log_entry",
   "reach_trigger_limit_log_entry", "repeat_escalation_path_log_entry",
   "exhaust_escalation_path_log_entry", "unacknowledge_log_entry",
   "annotate_log_entry", "snooze_log_entry", "unsnooze_log_entry"]

/-- The fixed vocabulary of the `include` filter
(`pagerduty_mcp/models/log_entries.py`, line 137). -/
def includeVocab : List String := ["incidents", "services", "channels", "teams"]

/-- `LogEntryQuery` (`pagerduty_mcp/models/log_entries.py`, lines 118-146):
validated caller-supplied filter options. `time_zone` is `Literal["UTC"]`,
`include` draws from `includeVocab`, `limit` is `int | None` constrained to
`[1, MAX_RESULTS]` with default `100`. -/
structure LogEntryQuery where
  since : Option DateTime
  «until» : Option DateTime
  time_zone : String
  is_overview : Bool
  «include» : Option (List String)
  limit : Option Int
deriving DecidableEq, Repr

/-- `IncidentLogEntryQuery` (`pagerduty_mcp/models/log_entries.py`, lines
164-192): declared separately in the source with the very same fields and
constraints as `LogEntryQuery`. -/
structure IncidentLogEntryQuery where
  since : Option DateTime
  «until» : Option DateTime
  time_zone : String
  is_overview : Bool
  «include» : Option (List String)
  limit : Option Int
deriving DecidableEq, Repr

/-- The pydantic field constraints of `LogEntryQuery`: `time_zone` is the
literal "UTC", every `include` member is in the fixed vocabulary, and a
present `limit` lies in `[1, MAX_RESULTS]`. -/
def LogEntryQuery.Valid (q : LogEntryQuery) : Prop :=
  q.time_zone = "UTC" ∧
  (∀ s ∈ q.«include».getD [], s ∈ includeVocab) ∧
  (∀ n, q.limit = some n → 1 ≤ n ∧ n ≤ MAX_RESULTS)

instance (q : LogEntryQuery) : Decidable q.Valid := by
  unfold LogEntryQuery.Valid
  exact inferInstance

/-- `LogEntryQuery.to_params` (`pagerduty_mcp/models/log_entries.py`, lines
148-161). Python truthiness is preserved: `if self.since:` is true exactly
when `since` is a datetime (datetimes are always truthy), `if self.include:`
is false for both `None` and the empty list, and `if self.limit:` is false
for both `None` and `0`. -/
def LogEntryQuery.to_params (q : LogEntryQuery) : Params :=
  let params : Params :=
    [("time_zone", ParamValue.str q.time_zone),
     ("is_overview", ParamValue.str (pyBoolStr q.is_overview))]
  let params : Params :=
    match q.since with
    | some d => params ++ [("since", ParamValue.str d.isoformat)]
    | none => params
  let params : Params :=
    match q.«until» with
    | some d => params ++ [("until", ParamValue.str d.isoformat)]
    | none => params
  let params : Params :=
    match q.«include» with
    | some l => if l = [] then params else params ++ [("include[]", ParamValue.strList l)]
    | none => params
  let params : Params :=
    match q.limit with
    | some n => if n = 0 then params else params ++ [("limit", ParamValue.int n)]
    | none => params
  params

/-- `IncidentLogEntryQuery.to_params` (`pagerduty_mcp/models/log_entries.py`,
lines 194-207): the source duplicates the body of `LogEntryQuery.to_params`
verbatim. -/
def IncidentLogEntryQuery.to_params (q : IncidentLogEntryQuery) : Params :=
  let params : Params :=
    [("time_zone", ParamValue.str q.time_zone),
     ("is_overview", ParamValue.str (pyBoolStr q.is_overview))]
  let params : Params :=
    match q.since with
    | some d => params ++ [("since", ParamValue.str d.isoformat)]
    | none => params
  let params : Params :=
    match q.«until» with
    | some d => params ++ [("until", ParamValue.str d.isoformat)]
    | none => params
  let params : Params :=
    match q.«include» with
    | some l => if l = [] then params else params ++ [("include[]", ParamValue.strList l)]
    | none => params
  let params : Params :=
    match q.limit with
    | some n => if n = 0 then params else params ++ [("limit", ParamValue.int n)]
    | none => params
  params

/-- Python `query_model.limit or 100` (`pagerduty_mcp/tools/log_entries.py`,
line 47): `None` and `0` are falsy, any other integer is returned as is. -/
def pyLimitOr100 (o : Option Int) : Int :=
  match o with
  | some n => if n = 0 then 100 else n
  | none => 100

/-- `IncidentReference` (`pagerduty_mcp/models/log_entries.py`, lines 28-37):
`id` required, `type` fixed to "incident_reference" with that default,
`summary`/`self`/`html_url` optional. -/
structure IncidentReference where
  id : String
  type : String
  summary : Option String
  self : Option String
  html_url : Option String
deriving DecidableEq, Repr

/-- Modelled from the spec: `UserReference` lives in
`pagerduty_mcp/models/references.py`, which is not among the shown sources;
the spec describes references as minimal identity+summary+URL triples carrying
a type tag ("user_reference"). -/
structure UserReference where
  id : String
  type : String
  summary : Option String
  self : Option String
  html_url : Option String
deriving DecidableEq, Repr

/-- Modelled from the spec: `ServiceReference` lives in
`pagerduty_mcp/models/references.py`, which is not among the shown sources;
the spec describes references as minimal identity+summary+URL triples carrying
a type tag ("service_reference"). -/
structure ServiceReference where
  id : String
  type : String
  summary : Option String
  self : Option String
  html_url : Option String
deriving DecidableEq, Repr

/-- The decoded `agent` union `UserReference | ServiceReference`
(`pagerduty_mcp/models/log_entries.py`, line 87), resolved by the embedded
type tag. -/
inductive AgentReference where
  | user (u : UserReference)
  | service (s : ServiceReference)
deriving DecidableEq, Repr

/-- `ChannelReference` (`pagerduty_mcp/models/log_entries.py`, lines 40-67):
`type` required, `summary` optional. -/
structure ChannelReference where
  type : String
  summary : Option String
deriving DecidableEq, Repr

/-- The decoded `LogEntry` entity (`pagerduty_mcp/models/log_entries.py`,
lines 70-115). `extra` holds the unknown top-level fields that pydantic's
`model_config = ConfigDict(extra="allow")` preserves on the instance. -/
structure LogEntry where
  id : String
  type : String
  summary : String
  self : String
  html_url : Option String
  created_at : DateTime
  agent : Option AgentReference
  channel : Option ChannelReference
  service : Option ServiceReference
  incident : IncidentReference
  teams : Option (List RawObj)
  contexts : Option (List RawObj)
  event_details : Option RawObj
  extra : RawObj
deriving Repr

/-- The declared (modeled) top-level field names of `LogEntry`; any other key
on a raw record is an unknown field kept by `extra="allow"`. -/
def logEntryKeys : List String :=
  ["id", "type", "summary", "self", "html_url", "created_at", "agent",
   "channel", "service", "incident", "teams", "contexts", "event_details"]

/-- The field name blamed by a failed field validation, `none` on success
(pydantic reports the error location as the field name). -/
def errName {α : Type} : Except String α → Option String
  | .ok _ => none
  | .error f => some f

/-- Value of a successful field validation, with a default for the (never
reported) failure case. -/
def okD {α : Type} (e : Except String α) (d : α) : α :=
  match e with
  | .ok v => v
  | .error _ => d

/-- Decode a required string field; pydantic blames the field when it is
missing or not a string. -/
def decReqStr (r : RawObj) (k : String) : Except String String :=
  match lookupKey r k with
  | some (RawValue.str s) => Except.ok s
  | _ => Except.error k

/-- Decode an optional string field (`str | None` with default `None`). -/
def decOptStr (r : RawObj) (k : String) : Except String (Option String) :=
  match lookupKey r k with
  | none => Except.ok none
  | some RawValue.null => Except.ok none
  | some (RawValue.str s) => Except.ok (some s)
  | some _ => Except.error k

/-- Decode the `type` discriminant against the closed `LogEntryType`
vocabulary: a missing, non-string, or out-of-vocabulary value fails, blaming
`type`. -/
def decLogType (r : RawObj) : Except String String :=
  match lookupKey r "type" with
  | some (RawValue.str s) =>
    if logEntryTypes.contains s then Except.ok s else Except.error "type"
  | _ => Except.error "type"

/-- Decode a required datetime field (`created_at`). -/
def decReqDT (r : RawObj) (k : String) : Except String DateTime :=
  match lookupKey r k with
  | some (RawValue.dt d) => Except.ok d
  | _ => Except.error k

/-- Decode an optional string sub-field of an embedded reference object,
blaming the outer field `f` on a type mismatch. -/
def decStrOptIn (f : String) (o : RawObj) (k : String) : Except String (Option String) :=
  match lookupKey o k with
  | none => Except.ok none
  | some RawValue.null => Except.ok none
  | some (RawValue.str s) => Except.ok (some s)
  | some _ => Except.error f

/-- Decode the `type` tag of an embedded reference: the pydantic `Literal`
tag defaults to `expected` when absent and must equal it when present. -/
def decTagIn (f : String) (o : RawObj) (expected : String) : Except String String :=
  match lookupKey o "type" with
  | none => Except.ok expected
  | some (RawValue.str s) => if s = expected then Except.ok s else Except.error f
  | some _ => Except.error f

/-- Decode an `IncidentReference`-shaped object, blaming the outer field `f`. -/
def decIncidentRefObj (f : String) (o : RawObj) : Except String IncidentReference :=
  match lookupKey o "id", decTagIn f o "incident_reference", decStrOptIn f o "summary",
        decStrOptIn f o "self", decStrOptIn f o "html_url" with
  | some (RawValue.str i), Except.ok t, Except.ok su, Except.ok se, Except.ok hu =>
    Except.ok ⟨i, t, su, se, hu⟩
  | _, _, _, _, _ => Except.error f

/-- Decode a `UserReference`-shaped object, blaming the outer field `f`. -/
def decUserRefObj (f : String) (o : RawObj) : Except String UserReference :=
  match lookupKey o "id", decTagIn f o "user_reference", decStrOptIn f o "summary",
        decStrOptIn f o "self", decStrOptIn f o "html_url" with
  | some (RawValue.str i), Except.ok t, Except.ok su, Except.ok se, Except.ok hu =>
    Except.ok ⟨i, t, su, se, hu⟩
  | _, _, _, _, _ => Except.error f

/-- Decode a `ServiceReference`-shaped object, blaming the outer field `f`. -/
def decServiceRefObj (f : String) (o : RawObj) : Except String ServiceReference :=
  match lookupKey o "id", decTagIn f o "service_reference", decStrOptIn f o "summary",
        decStrOptIn f o "self", decStrOptIn f o "html_url" with
  | some (RawValue.str i), Except.ok t, Except.ok su, Except.ok se, Except.ok hu =>
    Except.ok ⟨i, t, su, se, hu⟩
  | _, _, _, _, _ => Except.error f

/-- Decode the polymorphic `agent` field
(`UserReference | ServiceReference | None`): the sub-union is resolved by the
embedded `type` discriminant ("user_reference" or "service_reference"); an
absent or null agent decodes to `none`. -/
def decAgent (v : Option RawValue) : Except String (Option AgentReference) :=
  match v with
  | none => Except.ok none
  | some RawValue.null => Except.ok none
  | some (RawValue.obj o) =>
    match lookupKey o "type" with
    | some (RawValue.str "user_reference") =>
      (decUserRefObj "agent" o).map (fun u => some (AgentReference.user u))
    | some (RawValue.str "service_reference") =>
      (decServiceRefObj "agent" o).map (fun s => some (AgentReference.service s))
    | _ => Except.error "agent"
  | some _ => Except.error "agent"

/-- Decode the optional `channel` field (`ChannelReference | None`):
`type` is required inside the object, `summary` optional. -/
def decChannel (v : Option RawValue) : Except String (Option ChannelReference) :=
  match v with
  | none => Except.ok none
  | some RawValue.null => Except.ok none
  | some (RawValue.obj o) =>
    match lookupKey o "type", decStrOptIn "channel" o "summary" with
    | some (RawValue.str t), Except.ok su => Except.ok (some ⟨t, su⟩)
    | _, _ => Except.error "channel"
  | some _ => Except.error "channel"

/-- Decode the optional `service` field (`ServiceReference | None`). -/
def decServiceOpt (v : Option RawValue) : Except String (Option ServiceReference) :=
  match v with
  | none => Except.ok none
  | some RawValue.null => Except.ok none
  | some (RawValue.obj o) => (decServiceRefObj "service" o).map some
  | some _ => Except.error "service"

/-- Decode the required `incident` field (`IncidentReference`): a missing,
null, or non-object value fails, blaming `incident`. -/
def decIncident (v : Option RawValue) : Except String IncidentReference :=
  match v with
  | some (RawValue.obj o) => decIncidentRefObj "incident" o
  | _ => Except.error "incident"

/-- Require every element of a raw list to be an object (`list[dict]`). -/
def objsOf : List RawValue → Option (List RawObj)
  | [] => some []
  | RawValue.obj o :: rest => (objsOf rest).map (fun l => o :: l)
  | _ => none

/-- Decode an optional `list[dict[str, Any]]` field (`teams`, `contexts`). -/
def decDictList (r : RawObj) (k : String) : Except String (Option (List RawObj)) :=
  match lookupKey r k with
  | none => Except.ok none
  | some RawValue.null => Except.ok none
  | some (RawValue.list items) =>
    match objsOf items with
    | some l => Except.ok (some l)
    | none => Except.error k
  | some _ => Except.error k

/-- Decode an optional `dict[str, Any]` field (`event_details`). -/
def decDict (r : RawObj) (k : String) : Except String (Option RawObj) :=
  match lookupKey r k with
  | none => Except.ok none
  | some RawValue.null => Except.ok none
  | some (RawValue.obj o) => Except.ok (some o)
  | some _ => Except.error k

/-- The per-field validation outcomes of a raw record against the `LogEntry`
schema, in field-declaration order (pydantic collects one error location per
failing field). -/
def fieldErrs (r : RawObj) : List (Option String) :=
  [errName (decReqStr r "id"), errName (decLogType r), errName (decReqStr r "summary"),
   errName (decReqStr r "self"), errName (decOptStr r "html_url"),
   errName (decReqDT r "created_at"), errName (decAgent (lookupKey r "agent")),
   errName (decChannel (lookupKey r "channel")), errName (decServiceOpt (lookupKey r "service")),
   errName (decIncident (lookupKey r "incident")), errName (decDictList r "teams"),
   errName (decDictList r "contexts"), errName (decDict r "event_details")]

/-- The `LogEntry` built from a raw record once every field validated
(`extra="allow"`: top-level keys outside the declared schema are kept). -/
def buildLogEntry (r : RawObj) : LogEntry :=
  { id := okD (decReqStr r "id") ""
    type := okD (decLogType r) ""
    summary := okD (decReqStr r "summary") ""
    self := okD (decReqStr r "self") ""
    html_url := okD (decOptStr r "html_url") none
    created_at := okD (decReqDT r "created_at") ⟨0, 0, 0, 0, 0, 0⟩
    agent := okD (decAgent (lookupKey r "agent")) none
    channel := okD (decChannel (lookupKey r "channel")) none
    service := okD (decServiceOpt (lookupKey r "service")) none
    incident := okD (decIncident (lookupKey r "incident")) ⟨"", "incident_reference", none, none, none⟩
    teams := okD (decDictList r "teams") none
    contexts := okD (decDictList r "contexts") none
    event_details := okD (decDict r "event_details") none
    extra := r.filter (fun kv => !(logEntryKeys.contains kv.1)) }

/-- Pydantic validation of one raw record against `LogEntry`
(`LogEntry(**entry)` / `LogEntry.model_validate`): collects the failing field
names; succeeds exactly when no field fails. -/
def LogEntry.model_validate (r : RawObj) : Except (List String) LogEntry :=
  let errs := (fieldErrs r).filterMap (fun e => e)
  if errs = [] then Except.ok (buildLogEntry r) else Except.error errs

/-- One page returned by a transport request: the raw records and the
server's "more pages exist" indicator. -/
structure Page where
  records : List RawObj
  more : Bool

/-- The transport collaborator: one synchronous page fetch, taking the
entity path and the merged request parameters. -/
abbrev Transport := String → Params → Page

/-- Modelled from the spec: the endpoint's server-side maximum page size used
by `paginate` (`pagerduty_mcp/utils.py` is not among the shown sources); the
spec's scenarios walk the collection in pages of 100. -/
def SERVER_PAGE_LIMIT : Nat := 100

/-- Modelled from the spec: the loop body of `paginate` from
`pagerduty_mcp/utils.py`, which is not among the shown sources (spec, section
4.2). `remaining` is the record budget still open (it bounds the page size
requested and truncates the page kept, per the spec's "partial-page
truncation"); `fuel` only forces termination and starts at the cap, which the
walk can never outlive since every continuing page contributes at least one
record. Returns the accumulated records and the number of transport requests
issued. -/
def paginateGo (t : Transport) (entity : String) (params : Params) :
    Nat → Nat → Nat → List RawObj → Nat → List RawObj × Nat
  | 0, _, _, acc, reqs => (acc, reqs)
  | fuel + 1, remaining, offset, acc, reqs =>
    if remaining = 0 then (acc, reqs)
    else
      let requested := min remaining SERVER_PAGE_LIMIT
      let page := t entity
        (("offset", ParamValue.int (Int.ofNat offset)) ::
         ("limit", ParamValue.int (Int.ofNat requested)) :: params)
      let taken := page.records.take remaining
      let acc2 := acc ++ taken
      if page.more = false ∨ page.records.length < requested then (acc2, reqs + 1)
      else paginateGo t entity params fuel (remaining - taken.length)
        (offset + page.records.length) acc2 (reqs + 1)

/-- Modelled from the spec: `paginate` from `pagerduty_mcp/utils.py`, which is
not among the shown sources (spec, section 4.2): walk the collection endpoint
from the first page, accumulating records until the cap is reached or the
server signals no further pages; also reports how many transport requests
were issued. -/
def paginate (t : Transport) (entity : String) (params : Params)
    (maximum_records : Nat) : List RawObj × Nat :=
  paginateGo t entity params maximum_records maximum_records 0 [] 0

/-- The decode loop `[LogEntry(**entry) for entry in response]`
(`pagerduty_mcp/tools/log_entries.py`, line 50): the first failing record
aborts the whole decode. -/
def decodeAll : List RawObj → Except (List String) (List LogEntry)
  | [] => Except.ok []
  | r :: rest =>
    match LogEntry.model_validate r with
    | Except.error e => Except.error e
    | Except.ok v =>
      match decodeAll rest with
      | Except.error e => Except.error e
      | Except.ok vs => Except.ok (v :: vs)

/-- `list_log_entries` (`pagerduty_mcp/tools/log_entries.py`, lines 11-51)
with the transport passed explicitly: encode the query, walk the
`log_entries` collection under the cap `query_model.limit or 100`, decode
every raw record. The second component counts the transport requests issued. -/
def list_log_entries (t : Transport) (query_model : LogEntryQuery) :
    Except (List String) (List LogEntry) × Nat :=
  let params := query_model.to_params
  let response := paginate t "log_entries" params (pyLimitOr100 query_model.limit).toNat
  (decodeAll response.1, response.2)

/-- `list_incident_log_entries` (`pagerduty_mcp/tools/log_entries.py`, lines
54-130) with the transport passed explicitly: identical to
`list_log_entries` except for the entity path
`incidents/{incident_id}/log_entries`. -/
def list_incident_log_entries (t : Transport) (incident_id : String)
    (query_model : IncidentLogEntryQuery) :
    Except (List String) (List LogEntry) × Nat :=
  let params := query_model.to_params
  let response := paginate t ("incidents/" ++ incident_id ++ "/log_entries")
    params (pyLimitOr100 query_model.limit).toNat
  (decodeAll response.1, response.2)

/-- Parse an optional datetime query field (`datetime | None`, default
`None`). -/
def parseOptDT : Option RawValue → Option (Option DateTime)
  | none => some none
  | some RawValue.null => some none
  | some (RawValue.dt d) => some (some d)
  | some _ => none

/-- Parse the `time_zone` query field (`Literal["UTC"]`, default "UTC"). -/
def parseTZ : Option RawValue → Option String
  | none => some "UTC"
  | some (RawValue.str s) => if s = "UTC" then some s else none
  | some _ => none

/-- Parse the `is_overview` query field (`bool`, default `False`). -/
def parseOverview : Option RawValue → Option Bool
  | none => some false
  | some (RawValue.bool b) => some b
  | some _ => none

/-- Require every element of a raw list to be a string. -/
def strsOf : List RawValue → Option (List String)
  | [] => some []
  | RawValue.str s :: rest => (strsOf rest).map (fun l => s :: l)
  | _ => none

/-- Parse the `include` query field: a list drawn from the fixed
`Literal["incidents", "services", "channels", "teams"]` vocabulary, default
`None`; any member outside the vocabulary fails validation. -/
def parseInclude : Option RawValue → Option (Option (List String))
  | none => some none
  | some RawValue.null => some none
  | some (RawValue.list items) =>
    match strsOf items with
    | some ss => if ss.all (fun s => includeVocab.contains s) then some (some ss) else none
    | none => none
  | some _ => none

/-- Parse the `limit` query field (`int | None`, `ge=1`, `le=MAX_RESULTS`,
default `100`): an explicit `None` is accepted, an integer outside
`[1, MAX_RESULTS]` fails validation. -/
def parseLimit : Option RawValue → Option (Option Int)
  | none => some (some 100)
  | some RawValue.null => some none
  | some (RawValue.int n) =>
    if 1 ≤ n ∧ n ≤ MAX_RESULTS then some (some n) else none
  | some _ => none

/-- The declared field names of the query models; `extra="forbid"` rejects
any other key. -/
def queryKeys : List String :=
  ["since", "until", "time_zone", "is_overview", "include", "limit"]

/-- Pydantic construction of a `LogEntryQuery` from keyword arguments:
`model_config = ConfigDict(extra="forbid")` rejects unknown keys, then each
field parses with its default and constraints. -/
def LogEntryQuery.model_validate (input : RawObj) : Option LogEntryQuery :=
  if input.all (fun kv => queryKeys.contains kv.1) then
    match parseOptDT (lookupKey input "since"), parseOptDT (lookupKey input "until"),
          parseTZ (lookupKey input "time_zone"), parseOverview (lookupKey input "is_overview"),
          parseInclude (lookupKey input "include"), parseLimit (lookupKey input "limit") with
    | some s, some u, some tz, some ov, some inc, some lim =>
      some ⟨s, u, tz, ov, inc, lim⟩
    | _, _, _, _, _, _ => none
  else none

/-- Pydantic construction of an `IncidentLogEntryQuery` from keyword
arguments: the source declares the same fields, constraints, and
`extra="forbid"` again. -/
def IncidentLogEntryQuery.model_validate (input : RawObj) : Option IncidentLogEntryQuery :=
  if input.all (fun kv => queryKeys.contains kv.1) then
    match parseOptDT (lookupKey input "since"), parseOptDT (lookupKey input "until"),
          parseTZ (lookupKey input "time_zone"), parseOverview (lookupKey input "is_overview"),
          parseInclude (lookupKey input "include"), parseLimit (lookupKey input "limit") with
    | some s, some u, some tz, some ov, some inc, some lim =>
      some ⟨s, u, tz, ov, inc, lim⟩
    | _, _, _, _, _, _ => none
  else none

/-- The full caller path of `list_log_entries`: construct the query from raw
keyword arguments, then (only on validation success) encode and walk. A
validation failure is surfaced before any transport request: the request
count is `0`. -/
def list_log_entries_from_input (t : Transport) (input : RawObj) :
    Option (Except (List String) (List LogEntry)) × Nat :=
  match LogEntryQuery.model_validate input with
  | none => (none, 0)
  | some q =>
    let res := list_log_entries t q
    (some res.1, res.2)

/-- The pydantic field constraints of `IncidentLogEntryQuery`, declared again
in the source with the same bounds as `LogEntryQuery`. -/
def IncidentLogEntryQuery.Valid (q : IncidentLogEntryQuery) : Prop :=
  q.time_zone = "UTC" ∧
  (∀ s ∈ q.«include».getD [], s ∈ includeVocab) ∧
  (∀ n, q.limit = some n → 1 ≤ n ∧ n ≤ MAX_RESULTS)

instance (q : IncidentLogEntryQuery) : Decidable q.Valid := by
  unfold IncidentLogEntryQuery.Valid
  exact inferInstance

/-- The required top-level fields of `LogEntry`: every other declared field
has a default (`None`). -/
def requiredLogEntryKeys : List String :=
  ["id", "type", "summary", "self", "created_at", "incident"]

/-- A transport whose every page is empty with no continuation. -/
def emptyTransport : Transport := fun _ _ => ⟨[], false⟩

/-- The default `LogEntryQuery` (every field at its pydantic default). -/
def defaultQuery : LogEntryQuery := ⟨none, none, "UTC", false, none, some 100⟩

/-- A `LogEntryQuery` whose `limit` was explicitly passed as `None`: pydantic
accepts it, since the field type is `int | None` and `ge`/`le` only constrain
the `int` branch. -/
def qLimitNone : LogEntryQuery := ⟨none, none, "UTC", false, none, none⟩

/-- The spec's encoder scenario: cap 50, `is_overview` true, everything else
absent. -/
def q50 : LogEntryQuery := ⟨none, none, "UTC", true, none, some 50⟩

/-- The resolve-log-entry fixture of `tests/test_log_entries.py` (lines
26-52), with its `created_at` timestamp already parsed. -/
def sampleRecord : RawObj :=
  [("id", RawValue.str "LOGENTRY123"),
   ("type", RawValue.str "resolve_log_entry"),
   ("summary", RawValue.str "Resolved by User"),
   ("self", RawValue.str "https://api.pagerduty.com/log_entries/LOGENTRY123"),
   ("html_url", RawValue.str "https://test.pagerduty.com/log_entries/LOGENTRY123"),
   ("created_at", RawValue.dt ⟨2023, 1, 1, 0, 0, 0⟩),
   ("agent", RawValue.obj
     [("id", RawValue.str "PUSER123"), ("type", RawValue.str "user_reference"),
      ("summary", RawValue.str "Test User"),
      ("self", RawValue.str "https://api.pagerduty.com/users/PUSER123")]),
   ("service", RawValue.obj
     [("id", RawValue.str "PSERVICE123"), ("type", RawValue.str "service_reference"),
      ("summary", RawValue.str "Test Service"),
      ("self", RawValue.str "https://api.pagerduty.com/services/PSERVICE123")]),
   ("incident", RawValue.obj
     [("id", RawValue.str "PINCIDENT123"), ("type", RawValue.str "incident_reference"),
      ("summary", RawValue.str "Test Incident"),
      ("self", RawValue.str "https://api.pagerduty.com/incidents/PINCIDENT123"),
      ("html_url", RawValue.str "https://test.pagerduty.com/incidents/PINCIDENT123")])]

/-- The trigger-log-entry fixture of `tests/test_log_entries.py` (lines
54-72): its agent is a service reference. -/
def sampleTriggerRecord : RawObj :=
  [("id", RawValue.str "LOGENTRY456"),
   ("type", RawValue.str "trigger_log_entry"),
   ("summary", RawValue.str "Incident triggered"),
   ("self", RawValue.str "https://api.pagerduty.com/log_entries/LOGENTRY456"),
   ("created_at", RawValue.dt ⟨2023, 1, 1, 0, 0, 0⟩),
   ("agent", RawValue.obj
     [("id", RawValue.str "PSERVICE123"), ("type", RawValue.str "service_reference"),
      ("summary", RawValue.str "Test Service"),
      ("self", RawValue.str "https://api.pagerduty.com/services/PSERVICE123")]),
   ("incident", RawValue.obj
     [("id", RawValue.str "PINCIDENT123"), ("type", RawValue.str "incident_reference"),
      ("summary", RawValue.str "Test Incident")])]

/-- The escalate-log-entry fixture of `tests/test_log_entries.py` (lines
416-426): no agent at all. -/
def sampleEscalateRecord : RawObj :=
  [("id", RawValue.str "LOGENTRY_ESC"),
   ("type", RawValue.str "escalate_log_entry"),
   ("summary", RawValue.str "Escalated to next level"),
   ("self", RawValue.str "https://api.pagerduty.com/log_entries/LOGENTRY_ESC"),
   ("created_at", RawValue.dt ⟨2023, 1, 1, 1, 0, 0⟩),
   ("incident", RawValue.obj
     [("id", RawValue.str "PINCIDENT123"), ("type", RawValue.str "incident_reference")])]

/-- `sampleRecord` with its required `incident` field removed. -/
def sampleNoIncident : RawObj :=
  [("id", RawValue.str "LOGENTRY123"),
   ("type", RawValue.str "resolve_log_entry"),
   ("summary", RawValue.str "Resolved by User"),
   ("self", RawValue.str "https://api.pagerduty.com/log_entries/LOGENTRY123"),
   ("created_at", RawValue.dt ⟨2023, 1, 1, 0, 0, 0⟩)]

/-- `sampleEscalateRecord` with an extra top-level field outside the modeled
`LogEntry` schema. -/
def sampleWithExtra : RawObj :=
  sampleEscalateRecord ++ [("custom_field", RawValue.str "x")]

theorem lookupKey_append {α : Type} (l m : List (String × α)) (k : String) :
    lookupKey (l ++ m) k =
      (match lookupKey l k with
       | some v => some v
       | none => lookupKey m k) := by
  induction l with
  | nil => simp [lookupKey]
  | cons kv rest ih =>
    obtain ⟨k1, v1⟩ := kv
    by_cases h : k1 = k
    · simp [lookupKey, h]
    · simp [lookupKey, h, ih]

theorem lookup_to_params_time_zone (q : LogEntryQuery) :
    lookupKey q.to_params "time_zone" = some (ParamValue.str q.time_zone) := by
  obtain ⟨s, u, tz, ov, inc, lim⟩ := q
  cases s <;> cases u <;> cases inc <;> cases lim <;>
    simp only [LogEntryQuery.to_params] <;>
    first
    | (split_ifs <;> simp [lookupKey, lookupKey_append])
    | simp [lookupKey, lookupKey_append]

theorem lookup_to_params_is_overview (q : LogEntryQuery) :
    lookupKey q.to_params "is_overview" = some (ParamValue.str (pyBoolStr q.is_overview)) := by
  obtain ⟨s, u, tz, ov, inc, lim⟩ := q
  cases s <;> cases u <;> cases inc <;> cases lim <;>
    simp only [LogEntryQuery.to_params] <;>
    first
    | (split_ifs <;> simp [lookupKey, lookupKey_append])
    | simp [lookupKey, lookupKey_append]

theorem lookup_to_params_since (q : LogEntryQuery) :
    lookupKey q.to_params "since" = q.since.map (fun d => ParamValue.str d.isoformat) := by
  obtain ⟨s, u, tz, ov, inc, lim⟩ := q
  cases s <;> cases u <;> cases inc <;> cases lim <;>
    simp only [LogEntryQuery.to_params] <;>
    first
    | (split_ifs <;> simp [lookupKey, lookupKey_append])
    | simp [lookupKey, lookupKey_append]

theorem lookup_to_params_until (q : LogEntryQuery) :
    lookupKey q.to_params "until" = q.«until».map (fun d => ParamValue.str d.isoformat) := by
  obtain ⟨s, u, tz, ov, inc, lim⟩ := q
  cases s <;> cases u <;> cases inc <;> cases lim <;>
    simp only [LogEntryQuery.to_params] <;>
    first
    | (split_ifs <;> simp [lookupKey, lookupKey_append])
    | simp [lookupKey, lookupKey_append]

theorem lookup_to_params_include (q : LogEntryQuery) :
    lookupKey q.to_params "include[]" =
      (match q.«include» with
       | some l => if l = [] then none else some (ParamValue.strList l)
       | none => none) := by
  obtain ⟨s, u, tz, ov, inc, lim⟩ := q
  cases s <;> cases u <;> cases inc <;> cases lim <;>
    simp only [LogEntryQuery.to_params] <;>
    first
    | (split_ifs <;> simp_all [lookupKey, lookupKey_append])
    | simp_all [lookupKey, lookupKey_append]

theorem lookup_to_params_limit (q : LogEntryQuery) :
    lookupKey q.to_params "limit" =
      (match q.limit with
       | some n => if n = 0 then none else some (ParamValue.int n)
       | none => none) := by
  obtain ⟨s, u, tz, ov, inc, lim⟩ := q
  cases s <;> cases u <;> cases inc <;> cases lim <;>
    simp only [LogEntryQuery.to_params] <;>
    first
    | (split_ifs <;> simp_all [lookupKey, lookupKey_append])
    | simp_all [lookupKey, lookupKey_append]

/-- C9: `LogEntryQuery.to_params` and `IncidentLogEntryQuery.to_params` are
extensionally equal: on any common assignment of `since`, `until`,
`time_zone`, `is_overview`, `include`, and `limit`, the two query types
produce identical transport-parameter mappings. -/
theorem to_params_extensionally_equal
    (s u : Option DateTime) (tz : String) (ov : Bool)
    (inc : Option (List String)) (lim : Option Int) :
    LogEntryQuery.to_params ⟨s, u, tz, ov, inc, lim⟩ =
      IncidentLogEntryQuery.to_params ⟨s, u, tz, ov, inc, lim⟩ := rfl

/-- C3: `to_params` always emits `time_zone` and the stringified overview
flag, emits `since`/`until` exactly when present (ISO-serialized), emits
`include[]` only for a non-empty include list, emits no key for an absent
optional filter, and the query with cap 50 and `is_overview=true` and all
other fields absent encodes to exactly the three-key mapping
`time_zone: "UTC", is_overview: "true", limit: 50`. -/
theorem to_params_shape :
    (∀ q : LogEntryQuery,
      lookupKey q.to_params "time_zone" = some (ParamValue.str q.time_zone) ∧
      lookupKey q.to_params "is_overview" = some (ParamValue.str (pyBoolStr q.is_overview)) ∧
      (∀ d, q.since = some d →
        lookupKey q.to_params "since" = some (ParamValue.str d.isoformat)) ∧
      (q.since = none → lookupKey q.to_params "since" = none) ∧
      (∀ d, q.«until» = some d →
        lookupKey q.to_params "until" = some (ParamValue.str d.isoformat)) ∧
      (q.«until» = none → lookupKey q.to_params "until" = none) ∧
      (∀ l, q.«include» = some l → l ≠ [] →
        lookupKey q.to_params "include[]" = some (ParamValue.strList l)) ∧
      (q.«include» = none ∨ q.«include» = some [] →
        lookupKey q.to_params "include[]" = none)) ∧
    q50.to_params =
      [("time_zone", ParamValue.str "UTC"), ("is_overview", ParamValue.str "true"),
       ("limit", ParamValue.int 50)] := by
  constructor
  · intro q
    refine ⟨lookup_to_params_time_zone q, lookup_to_params_is_overview q, ?_, ?_, ?_, ?_, ?_, ?_⟩
    · intro d hd
      rw [lookup_to_params_since, hd]
      rfl
    · intro hd
      rw [lookup_to_params_since, hd]
      rfl
    · intro d hd
      rw [lookup_to_params_until, hd]
      rfl
    · intro hd
      rw [lookup_to_params_until, hd]
      rfl
    · intro l hl hne
      rw [lookup_to_params_include, hl]
      simp [hne]
    · intro h
      rcases h with h | h
      · rw [lookup_to_params_include, h]
      · rw [lookup_to_params_include, h]
        simp
  · rfl

/-- C3 witness: the shape statement evaluated at the query with `since`
absent. -/
theorem to_params_shape_witness :
    lookupKey qLimitNone.to_params "since" = none :=
  (to_params_shape.1 qLimitNone).2.2.2.1 rfl

/-- C2 counterexample: the claim fails on the code. `LogEntryQuery` with an
explicit `limit=None` passes validation; its encoded parameters carry no
`limit` key at all, yet the walker is invoked with the substituted cap 100. -/
theorem limit_key_counterexample :
    qLimitNone.Valid ∧
    lookupKey qLimitNone.to_params "limit" = none ∧
    pyLimitOr100 qLimitNone.limit = 100 := by
  refine ⟨?_, rfl, rfl⟩
  refine ⟨rfl, ?_, ?_⟩ <;> intro x hx <;> simp [qLimitNone] at hx

/-- C2 (amended): the cap passed to the walker is always a concrete positive
integer, with the default 100 substituted when `limit` is absent or `None`;
`to_params` emits a `limit` key exactly when the `limit` field itself holds a
(necessarily positive) integer — when `limit` is `None` the encoded
parameters lack the `limit` key even though the walker still receives cap
100. -/
theorem limit_key_amended (q : LogEntryQuery) (h : q.Valid) :
    1 ≤ pyLimitOr100 q.limit ∧
    (∀ n, q.limit = some n →
      lookupKey q.to_params "limit" = some (ParamValue.int n) ∧ pyLimitOr100 q.limit = n) ∧
    (q.limit = none →
      lookupKey q.to_params "limit" = none ∧ pyLimitOr100 q.limit = 100) := by
  obtain ⟨-, -, hlim⟩ := h
  refine ⟨?_, ?_, ?_⟩
  · cases hq : q.limit with
    | none => simp [pyLimitOr100]
    | some n =>
      have := hlim n hq
      simp only [pyLimitOr100, hq]
      rw [if_neg (by omega)]
      omega
  · intro n hq
    have hn := hlim n hq
    constructor
    · rw [lookup_to_params_limit, hq]
      simp
      omega
    · simp only [pyLimitOr100, hq]
      rw [if_neg (by omega)]
  · intro hq
    constructor
    · rw [lookup_to_params_limit, hq]
    · simp [pyLimitOr100, hq]

theorem paginateGo_fst_length (t : Transport) (entity : String) (params : Params)
    (fuel : Nat) :
    ∀ (remaining offset : Nat) (acc : List RawObj) (reqs : Nat),
      (paginateGo t entity params fuel remaining offset acc reqs).1.length ≤
        acc.length + remaining := by
  induction fuel with
  | zero =>
    intro remaining offset acc reqs
    simp [paginateGo]
  | succ n ih =>
    intro remaining offset acc reqs
    simp only [paginateGo]
    by_cases h0 : remaining = 0
    · simp [h0]
    · rw [if_neg h0]
      generalize t entity (("offset", ParamValue.int (Int.ofNat offset)) ::
        ("limit", ParamValue.int (Int.ofNat (min remaining SERVER_PAGE_LIMIT))) :: params) = page
      have ht := List.length_take remaining page.records
      by_cases h1 : page.more = false ∨ page.records.length < min remaining SERVER_PAGE_LIMIT
      · rw [if_pos h1]
        simp only [List.length_append]
        omega
      · rw [if_neg h1]
        refine le_trans (ih _ _ _ _) ?_
        simp only [List.length_append]
        omega

theorem paginate_fst_length (t : Transport) (entity : String) (params : Params)
    (maximum_records : Nat) :
    (paginate t entity params maximum_records).1.length ≤ maximum_records := by
  have h := paginateGo_fst_length t entity params maximum_records maximum_records 0 [] 0
  simpa [paginate] using h

theorem decodeAll_length : ∀ (l : List RawObj) (es : List LogEntry),
    decodeAll l = Except.ok es → es.length = l.length := by
  intro l
  induction l with
  | nil =>
    intro es h
    simp only [decodeAll] at h
    cases h
    rfl
  | cons r rest ih =>
    intro es h
    simp only [decodeAll] at h
    cases hv : LogEntry.model_validate r with
    | error e => rw [hv] at h; cases h
    | ok v =>
      rw [hv] at h
      cases hrest : decodeAll rest with
      | error e => rw [hrest] at h; cases h
      | ok vs =>
        rw [hrest] at h
        cases h
        simp [ih vs hrest]

/-- C1: for every valid query and any transport behaviour, the sequence of
decoded `LogEntry` values returned by the paginated listing operations
(`list_log_entries`, `list_incident_log_entries`) has length at most the
caller's record cap `maximum_records` (`query_model.limit or 100`). -/
theorem listing_length_le_maximum_records :
    (∀ (t : Transport) (q : LogEntryQuery) (entries : List LogEntry) (reqs : Nat),
      q.Valid → list_log_entries t q = (Except.ok entries, reqs) →
      entries.length ≤ (pyLimitOr100 q.limit).toNat) ∧
    (∀ (t : Transport) (incident_id : String) (q : IncidentLogEntryQuery)
        (entries : List LogEntry) (reqs : Nat),
      q.Valid → list_incident_log_entries t incident_id q = (Except.ok entries, reqs) →
      entries.length ≤ (pyLimitOr100 q.limit).toNat) := by
  constructor
  · intro t q entries reqs _ h
    have h1 : decodeAll
        (paginate t "log_entries" q.to_params (pyLimitOr100 q.limit).toNat).1 =
        Except.ok entries := by
      simpa [list_log_entries] using congrArg Prod.fst h
    have h2 := decodeAll_length _ _ h1
    have h3 := paginate_fst_length t "log_entries" q.to_params (pyLimitOr100 q.limit).toNat
    omega
  · intro t incident_id q entries reqs _ h
    have h1 : decodeAll
        (paginate t ("incidents/" ++ incident_id ++ "/log_entries") q.to_params
          (pyLimitOr100 q.limit).toNat).1 = Except.ok entries := by
      simpa [list_incident_log_entries] using congrArg Prod.fst h
    have h2 := decodeAll_length _ _ h1
    have h3 := paginate_fst_length t ("incidents/" ++ incident_id ++ "/log_entries")
      q.to_params (pyLimitOr100 q.limit).toNat
    omega

/-- C1 witness: the bound evaluated on the empty transport at the default
query. -/
theorem listing_length_le_maximum_records_witness :
    ([] : List LogEntry).length ≤ (pyLimitOr100 defaultQuery.limit).toNat :=
  listing_length_le_maximum_records.1 emptyTransport defaultQuery [] 1 (by decide) rfl

/-- C10: the query models are closed: constructing a `LogEntryQuery` or an
`IncidentLogEntryQuery` from keyword arguments containing any field name
outside the declared schema fails validation (`extra="forbid"` on query
input), in contrast to the decoder's tolerance of extra fields on records. -/
theorem query_extra_fields_forbidden (input : RawObj) (k : String) (v : RawValue)
    (hmem : (k, v) ∈ input) (hk : k ∉ queryKeys) :
    LogEntryQuery.model_validate input = none ∧
    IncidentLogEntryQuery.model_validate input = none := by
  have hall : ¬ (input.all (fun kv => queryKeys.contains kv.1) = true) := by
    intro hA
    have h2 := List.all_eq_true.mp hA (k, v) hmem
    simp only at h2
    simp at h2
    exact hk h2
  constructor
  · unfold LogEntryQuery.model_validate
    rw [if_neg hall]
  · unfold IncidentLogEntryQuery.model_validate
    rw [if_neg hall]

/-- C10 witness: an unknown keyword is rejected by both query models. -/
theorem query_extra_fields_forbidden_witness :
    LogEntryQuery.model_validate [("foo", RawValue.null)] = none ∧
    IncidentLogEntryQuery.model_validate [("foo", RawValue.null)] = none :=
  query_extra_fields_forbidden [("foo", RawValue.null)] "foo" RawValue.null
    (by simp) (by decide)

theorem strsOf_mem : ∀ (items : List RawValue) (ss : List String) (s : String),
    strsOf items = some ss → RawValue.str s ∈ items → s ∈ ss := by
  intro items
  induction items with
  | nil =>
    intro ss s _ hm
    cases hm
  | cons x rest ih =>
    intro ss s h hm
    cases x with
    | str s1 =>
      simp only [strsOf] at h
      cases hsf : strsOf rest with
      | none => rw [hsf] at h; cases h
      | some l =>
        rw [hsf] at h
        simp only [Option.map_some'] at h
        cases h
        rcases List.mem_cons.mp hm with h1 | h1
        · cases h1
          exact List.mem_cons_self _ _
        · exact List.mem_cons_of_mem _ (ih l s hsf h1)
    | int n => simp [strsOf] at h
    | bool b => simp [strsOf] at h
    | dt d => simp [strsOf] at h
    | null => simp [strsOf] at h
    | list l => simp [strsOf] at h
    | obj o => simp [strsOf] at h

theorem model_validate_none_of_parse (input : RawObj)
    (h : parseLimit (lookupKey input "limit") = none ∨
      parseInclude (lookupKey input "include") = none) :
    LogEntryQuery.model_validate input = none ∧
    IncidentLogEntryQuery.model_validate input = none := by
  constructor
  · unfold LogEntryQuery.model_validate
    by_cases hA : input.all (fun kv => queryKeys.contains kv.1) = true
    · rw [if_pos hA]
      rcases h with h | h <;> rw [h] <;> split <;> simp_all
    · rw [if_neg hA]
  · unfold IncidentLogEntryQuery.model_validate
    by_cases hA : input.all (fun kv => queryKeys.contains kv.1) = true
    · rw [if_pos hA]
      rcases h with h | h <;> rw [h] <;> split <;> simp_all
    · rw [if_neg hA]

/-- C4: keyword arguments whose cap lies outside `[1, MAX_RESULTS]`, or whose
include list holds a value outside the fixed vocabulary, fail validation in
both query models, and the failure is surfaced before any network activity:
the full caller path issues zero transport requests. -/
theorem invalid_query_rejected_before_network (t : Transport) (input : RawObj)
    (hbad :
      (∃ n, lookupKey input "limit" = some (RawValue.int n) ∧ (n < 1 ∨ MAX_RESULTS < n)) ∨
      (∃ items s, lookupKey input "include" = some (RawValue.list items) ∧
        RawValue.str s ∈ items ∧ s ∉ includeVocab)) :
    LogEntryQuery.model_validate input = none ∧
    IncidentLogEntryQuery.model_validate input = none ∧
    list_log_entries_from_input t input = (none, 0) := by
  have hnone : parseLimit (lookupKey input "limit") = none ∨
      parseInclude (lookupKey input "include") = none := by
    rcases hbad with ⟨n, hl, hn⟩ | ⟨items, s, hl, hmem, hs⟩
    · left
      rw [hl]
      simp only [parseLimit]
      rw [if_neg (by omega)]
    · right
      rw [hl]
      simp only [parseInclude]
      cases hsf : strsOf items with
      | none => rfl
      | some ss =>
        have hss : s ∈ ss := strsOf_mem items ss s hsf hmem
        have hAllF : ¬ ((ss.all fun x => includeVocab.contains x) = true) := by
          intro hAll
          have h2 := List.all_eq_true.mp hAll s hss
          simp at h2
          exact hs h2
        simp [hAllF]
        exact ⟨s, hss, hs⟩
  have hv := model_validate_none_of_parse input hnone
  refine ⟨hv.1, hv.2, ?_⟩
  unfold list_log_entries_from_input
  rw [hv.1]

/-- C4 witness: a zero cap is rejected with zero transport requests. -/
theorem invalid_query_rejected_before_network_witness :
    LogEntryQuery.model_validate [("limit", RawValue.int 0)] = none ∧
    IncidentLogEntryQuery.model_validate [("limit", RawValue.int 0)] = none ∧
    list_log_entries_from_input emptyTransport [("limit", RawValue.int 0)] = (none, 0) :=
  invalid_query_rejected_before_network emptyTransport [("limit", RawValue.int 0)]
    (Or.inl ⟨0, rfl, Or.inl (by decide)⟩)

/-- C2 witness: the amended statement evaluated at the default query. -/
theorem limit_key_amended_witness :
    1 ≤ pyLimitOr100 defaultQuery.limit ∧
    (∀ n, defaultQuery.limit = some n →
      lookupKey defaultQuery.to_params "limit" = some (ParamValue.int n) ∧
        pyLimitOr100 defaultQuery.limit = n) ∧
    (defaultQuery.limit = none →
      lookupKey defaultQuery.to_params "limit" = none ∧
        pyLimitOr100 defaultQuery.limit = 100) :=
  limit_key_amended defaultQuery (by decide)

theorem model_validate_ok_elim {r : RawObj} {e : LogEntry}
    (h : LogEntry.model_validate r = Except.ok e) :
    (∀ x ∈ fieldErrs r, x = none) ∧ e = buildLogEntry r := by
  simp only [LogEntry.model_validate] at h
  by_cases hc : (fieldErrs r).filterMap (fun x => x) = []
  · rw [if_pos hc] at h
    cases h
    refine ⟨?_, rfl⟩
    intro x hx
    have hx2 := List.filterMap_eq_nil_iff.mp hc x hx
    simpa using hx2
  · rw [if_neg hc] at h
    cases h

theorem model_validate_error_of_mem (r : RawObj) (f : String)
    (h : some f ∈ fieldErrs r) :
    ∃ errs, LogEntry.model_validate r = Except.error errs ∧ f ∈ errs := by
  have hf : f ∈ (fieldErrs r).filterMap (fun x => x) :=
    List.mem_filterMap.mpr ⟨some f, h, rfl⟩
  have hne : (fieldErrs r).filterMap (fun x => x) ≠ [] := List.ne_nil_of_mem hf
  refine ⟨(fieldErrs r).filterMap (fun x => x), ?_, hf⟩
  simp only [LogEntry.model_validate]
  rw [if_neg hne]

theorem decLogType_ok {r : RawObj} {v : String} (h : decLogType r = Except.ok v) :
    v ∈ logEntryTypes := by
  unfold decLogType at h
  split at h
  next s heq =>
    split at h
    next hc =>
      cases h
      simpa using hc
    next hc => cases h
  next => cases h

/-- C5: decoding fails with a validation error naming the missing field
whenever a required field (`id`, `type`, `summary`, `self`, `created_at`,
`incident`) is absent — in particular a record missing `incident` fails
naming `incident` — a `type` value outside the fixed 13-member vocabulary
fails naming `type`, and the discriminant vocabulary is closed: every decoded
entry's `type` lies in it. -/
theorem decode_required_fields_closed_vocab :
    (∀ (r : RawObj) (k : String), k ∈ requiredLogEntryKeys → lookupKey r k = none →
      ∃ errs, LogEntry.model_validate r = Except.error errs ∧ k ∈ errs) ∧
    (∀ (r : RawObj) (s : String), lookupKey r "type" = some (RawValue.str s) →
      s ∉ logEntryTypes →
      ∃ errs, LogEntry.model_validate r = Except.error errs ∧ "type" ∈ errs) ∧
    (∀ (r : RawObj) (e : LogEntry), LogEntry.model_validate r = Except.ok e →
      e.type ∈ logEntryTypes) := by
  refine ⟨?_, ?_, ?_⟩
  · intro r k hk hnone
    apply model_validate_error_of_mem
    simp only [requiredLogEntryKeys, List.mem_cons, List.mem_singleton] at hk
    rcases hk with rfl | rfl | rfl | rfl | rfl | rfl | hk
    · simp [fieldErrs, decReqStr, errName, hnone]
    · simp [fieldErrs, decLogType, errName, hnone]
    · simp [fieldErrs, decReqStr, errName, hnone]
    · simp [fieldErrs, decReqStr, errName, hnone]
    · simp [fieldErrs, decReqDT, errName, hnone]
    · simp [fieldErrs, decIncident, errName, hnone]
    · cases hk
  · intro r s hl hs
    apply model_validate_error_of_mem
    simp [fieldErrs, decLogType, errName, hl, hs]
  · intro r e h
    obtain ⟨hall, rfl⟩ := model_validate_ok_elim h
    have hmem : errName (decLogType r) ∈ fieldErrs r := by simp [fieldErrs]
    have hn := hall _ hmem
    cases hd : decLogType r with
    | error f => rw [hd] at hn; simp [errName] at hn
    | ok v =>
      have he : (buildLogEntry r).type = v := by simp [buildLogEntry, hd, okD]
      rw [he]
      exact decLogType_ok hd

/-- C5 witness: the fixture missing `incident` fails naming `incident`; an
out-of-vocabulary `type` fails naming `type`. -/
theorem decode_required_fields_closed_vocab_witness :
    (∃ errs, LogEntry.model_validate sampleNoIncident = Except.error errs ∧
      "incident" ∈ errs) ∧
    (∃ errs, LogEntry.model_validate [("type", RawValue.str "bogus_log_entry")] =
      Except.error errs ∧ "type" ∈ errs) :=
  ⟨decode_required_fields_closed_vocab.1 sampleNoIncident "incident" (by decide) rfl,
   decode_required_fields_closed_vocab.2.1 [("type", RawValue.str "bogus_log_entry")]
     "bogus_log_entry" rfl (by decide)⟩

/-- C6: for every raw record accepted by the decoder, an agent object tagged
`service_reference` decodes to a service-typed agent, one tagged
`user_reference` decodes to a user-typed agent, and an absent agent field
decodes to a null agent. -/
theorem agent_discriminant_resolution :
    (∀ (r : RawObj) (e : LogEntry) (o : RawObj),
      LogEntry.model_validate r = Except.ok e →
      lookupKey r "agent" = some (RawValue.obj o) →
      lookupKey o "type" = some (RawValue.str "service_reference") →
      ∃ s, e.agent = some (AgentReference.service s)) ∧
    (∀ (r : RawObj) (e : LogEntry) (o : RawObj),
      LogEntry.model_validate r = Except.ok e →
      lookupKey r "agent" = some (RawValue.obj o) →
      lookupKey o "type" = some (RawValue.str "user_reference") →
      ∃ u, e.agent = some (AgentReference.user u)) ∧
    (∀ (r : RawObj) (e : LogEntry),
      LogEntry.model_validate r = Except.ok e → lookupKey r "agent" = none →
      e.agent = none) := by
  refine ⟨?_, ?_, ?_⟩
  · intro r e o hok hagent htag
    obtain ⟨hall, rfl⟩ := model_validate_ok_elim hok
    have hmem : errName (decAgent (lookupKey r "agent")) ∈ fieldErrs r := by
      simp [fieldErrs]
    have hn := hall _ hmem
    have hda : decAgent (some (RawValue.obj o)) =
        (decServiceRefObj "agent" o).map (fun s => some (AgentReference.service s)) := by
      simp [decAgent, htag]
    cases hsr : decServiceRefObj "agent" o with
    | error f =>
      rw [hagent, hda, hsr] at hn
      simp [errName, Except.map] at hn
    | ok sref =>
      refine ⟨sref, ?_⟩
      simp [buildLogEntry, hagent, hda, hsr, okD, Except.map]
  · intro r e o hok hagent htag
    obtain ⟨hall, rfl⟩ := model_validate_ok_elim hok
    have hmem : errName (decAgent (lookupKey r "agent")) ∈ fieldErrs r := by
      simp [fieldErrs]
    have hn := hall _ hmem
    have hda : decAgent (some (RawValue.obj o)) =
        (decUserRefObj "agent" o).map (fun u => some (AgentReference.user u)) := by
      simp [decAgent, htag]
    cases hur : decUserRefObj "agent" o with
    | error f =>
      rw [hagent, hda, hur] at hn
      simp [errName, Except.map] at hn
    | ok uref =>
      refine ⟨uref, ?_⟩
      simp [buildLogEntry, hagent, hda, hur, okD, Except.map]
  · intro r e hok hagent
    obtain ⟨-, rfl⟩ := model_validate_ok_elim hok
    simp [buildLogEntry, hagent, decAgent, okD]

/-- C6 witness: the three test fixtures — service-tagged agent, user-tagged
agent, and absent agent. -/
theorem agent_discriminant_resolution_witness :
    (∃ s, (buildLogEntry sampleTriggerRecord).agent = some (AgentReference.service s)) ∧
    (∃ u, (buildLogEntry sampleRecord).agent = some (AgentReference.user u)) ∧
    (buildLogEntry sampleEscalateRecord).agent = none :=
  ⟨agent_discriminant_resolution.1 sampleTriggerRecord (buildLogEntry sampleTriggerRecord)
      _ rfl rfl rfl,
   agent_discriminant_resolution.2.1 sampleRecord (buildLogEntry sampleRecord) _ rfl rfl rfl,
   agent_discriminant_resolution.2.2 sampleEscalateRecord (buildLogEntry sampleEscalateRecord)
      rfl rfl⟩

/-- C7: a raw record with top-level fields beyond the modeled `LogEntry`
schema decodes successfully (other fields permitting) and every unknown field
is preserved on the decoded entity's extra bag rather than rejected or
dropped. -/
theorem unknown_fields_preserved :
    (∀ (r : RawObj) (e : LogEntry) (k : String) (v : RawValue),
      LogEntry.model_validate r = Except.ok e → (k, v) ∈ r → k ∉ logEntryKeys →
      (k, v) ∈ e.extra) ∧
    (∃ e, LogEntry.model_validate sampleWithExtra = Except.ok e ∧
      ("custom_field", RawValue.str "x") ∈ e.extra) := by
  constructor
  · intro r e k v hok hmem hk
    obtain ⟨-, rfl⟩ := model_validate_ok_elim hok
    simp only [buildLogEntry]
    refine List.mem_filter.mpr ⟨hmem, ?_⟩
    simpa using hk
  · refine ⟨buildLogEntry sampleWithExtra, rfl, ?_⟩
    have hx : (buildLogEntry sampleWithExtra).extra =
        [("custom_field", RawValue.str "x")] := rfl
    rw [hx]
    exact List.mem_singleton.mpr rfl

/-- C7 witness: the general preservation statement evaluated on the record
with the extra `custom_field`. -/
theorem unknown_fields_preserved_witness :
    ("custom_field", RawValue.str "x") ∈ (buildLogEntry sampleWithExtra).extra :=
  unknown_fields_preserved.1 sampleWithExtra (buildLogEntry sampleWithExtra)
    "custom_field" (RawValue.str "x") rfl (by simp [sampleWithExtra, sampleEscalateRecord])
    (by decide)

/-- C8: decoding is deterministic and idempotent: decoding the same raw
record twice yields equal `LogEntry` values (the decoder is a pure function
of the record; no I/O is modeled or needed). -/
theorem decode_deterministic (r : RawObj) (e1 e2 : LogEntry)
    (h1 : LogEntry.model_validate r = Except.ok e1)
    (h2 : LogEntry.model_validate r = Except.ok e2) : e1 = e2 := by
  rw [h1] at h2
  cases h2
  rfl

/-- C8 witness: the determinism statement evaluated on the resolve fixture. -/
theorem decode_deterministic_witness :
    buildLogEntry sampleRecord = buildLogEntry sampleRecord :=
  decode_deterministic sampleRecord (buildLogEntry sampleRecord)
    (buildLogEntry sampleRecord) rfl rfl

end PagerdutyMcp
